import Mathlib

/-!
Shallow embedding of the DisTube v3 queue subsystem
(src/src/struct/Queue.ts, src/src/struct/Song.ts) and of the per-session
task serializer described by the specification, together with theorems
settling the specification claims.

JavaScript numbers used as indices/counters are modelled as `Int`/`Nat`;
time values (seconds, possibly fractional) and volume are modelled as `ℚ`.
JavaScript `throw` sites are modelled with `Except`: every operation of
Queue.ts performs all of its throws before its first state mutation, so an
error result leaves the queue state unchanged.
-/

deriving instance DecidableEq for Except

namespace DisTubeModel

/-- A related-video entry carried by a song (only the fields the queue code
reads: `id` for the already-played filter, `url` for re-resolution). -/
structure Related where
  id : String
  url : String
deriving DecidableEq

/-- Embedding of `Song` (src/src/struct/Song.ts): the fields the queue
subsystem reads. `info` is the transient raw-info handle (`ytdl.videoInfo`),
present only for fully-fetched YouTube songs and removed by
`Queue.addToQueue` (`delete s.info`). -/
structure Song where
  id : String
  name : String
  isLive : Bool
  duration : Nat
  url : String
  info : Option Nat
  related : List Related
deriving DecidableEq

/-- Modelled from the spec: `toSecond` lives in src/Util.ts which is not part
of the provided sources; the spec only says durations are "seconds, 0 if
live", and every claim about durations factors through the `isLive` branch,
so the conversion is modelled as reading the numeric value (absent/falsy
input gives 0, matching `toSecond(undefined)`). -/
def toSecond : Option Nat → Nat
  | none => 0
  | some n => n

/-- JavaScript `a || b` on optional numeric fields: `a` is kept when present
and non-zero (truthy), otherwise `b` is taken. -/
def jsOr (a b : Option Nat) : Option Nat :=
  match a with
  | some n => if n = 0 then b else some n
  | none => b

/-- Input record for `Song._patchYouTube` (src/src/struct/Song.ts lines
66-175): the resolved `details` object (`info.videoDetails || info`) plus
whether this is a fully-fetched info (`info.full === true`). -/
structure YTInput where
  full : Bool
  videoId : String
  title : String
  isLive : Bool
  lengthSeconds : Option Nat
  length_seconds : Option Nat
  duration : Option Nat
  related : List Related
deriving DecidableEq

/-- Embedding of `Song._patchYouTube`: `duration` is 0 when live, otherwise
`toSecond(details.lengthSeconds || details.length_seconds ||
details.duration)`. -/
def patchYouTube (i : YTInput) : Song :=
  { id := i.videoId
    name := i.title
    isLive := i.isLive
    duration := if i.isLive then 0 else toSecond (jsOr (jsOr i.lengthSeconds i.length_seconds) i.duration)
    url := "https://www.youtube.com/watch?v=" ++ i.videoId
    info := if i.full then some 0 else none
    related := i.related }

/-- Input record for `Song._patchOther` (src/src/struct/Song.ts lines
182-202): the fields of `OtherSongInfo` the patch reads for the claims. -/
structure OtherInput where
  id : Option String
  title : Option String
  name : Option String
  is_live : Bool
  isLive : Bool
  _duration_raw : Option Nat
  duration : Option Nat
  webpage_url : Option String
  url : String
  related : List Related
deriving DecidableEq

/-- Embedding of `Song._patchOther`: `isLive = Boolean(info.is_live ||
info.isLive)`, `duration` is 0 when live, otherwise
`toSecond(info._duration_raw || info.duration)`. -/
def patchOther (i : OtherInput) : Song :=
  { id := i.id.getD ""
    name := (i.title.orElse fun _ => i.name).getD ""
    isLive := i.is_live || i.isLive
    duration := if i.is_live || i.isLive then 0 else toSecond (jsOr i._duration_raw i.duration)
    url := (i.webpage_url.getD i.url)
    info := none
    related := i.related }

/-- The DisTube options the queue operations read: `options.savePreviousSongs`
(`previous`, `jump`), `options.leaveOnStop` (`stop`), and the keys of
`distube.filters` (`setFilter`'s `hasOwnProperty` check). -/
structure Options where
  savePreviousSongs : Bool
  leaveOnStop : Bool
  filters : List String
deriving DecidableEq

/-- The error taxonomy of the queue operations (each `throw` site of
Queue.ts mapped to the spec's error name). -/
inductive DTError where
  | InvalidInput
  | AlreadyPaused
  | AlreadyPlaying
  | NoNextSong
  | NoPreviousSong
  | FeatureDisabled
  | InvalidSong
  | NoPlayingSong
  | NoRelatedSong
deriving DecidableEq

/-- Embedding of the mutable state of `Queue` (src/src/struct/Queue.ts):
every field the operations read or write. `audioResource` is `none` when no
audio resource exists, `some ms` when one exists with `playbackDuration`
of `ms` milliseconds. -/
structure Queue where
  volume : ℚ
  songs : List Song
  previousSongs : List Song
  stopped : Bool
  next : Bool
  prev : Bool
  playing : Bool
  paused : Bool
  repeatMode : Int
  autoplay : Bool
  filters : List String
  beginTime : ℚ
  audioResource : Option Nat
deriving DecidableEq

/-- The `Queue` constructor (src/src/struct/Queue.ts lines 121-226) with its
initial field values; `songs` is the normalized initial song list
(`Array.isArray(song) ? [...song] : [song]`). -/
def initialQueue (songs : List Song) : Queue :=
  { volume := 50
    songs := songs
    previousSongs := []
    stopped := false
    next := false
    prev := false
    playing := true
    paused := false
    repeatMode := 0
    autoplay := false
    filters := []
    beginTime := 0
    audioResource := none }

/-- `Queue.currentTime`: `audioResource ? playbackDuration / 1e3 + beginTime
: 0`. -/
def currentTime (q : Queue) : ℚ :=
  match q.audioResource with
  | none => 0
  | some ms => (ms : ℚ) / 1000 + q.beginTime

/-- The argument of `Queue.addToQueue`: a single song or an array of songs. -/
inductive SongInput where
  | one (s : Song)
  | many (l : List Song)
deriving DecidableEq

/-- The songs carried by a `SongInput`. -/
def SongInput.songs : SongInput → List Song
  | .one s => [s]
  | .many l => l

/-- `delete s.info` applied to an inserted song. -/
def deleteInfo (s : Song) : Song :=
  { s with info := none }

/-- Embedding of `Queue.addToQueue(song, position = -1)` (lines 269-281).
The argument is `none` for a missing (falsy) song argument. A negative
position pushes at the end; a positive position splices at that index
(JavaScript `splice` clamps the start index to the array length). The
inserted songs have their `info` removed (`delete s.info` runs on the very
objects that were inserted). -/
def addToQueue (input : Option SongInput) (position : Int) (q : Queue) : Except DTError Queue :=
  match input with
  | none => .error .InvalidInput
  | some si =>
    if si.songs.isEmpty then .error .InvalidInput
    else if position = 0 then .error .InvalidInput
    else if position < 0 then .ok { q with songs := q.songs ++ si.songs.map deleteInfo }
    else
      .ok { q with songs :=
        q.songs.take (min position.toNat q.songs.length)
          ++ si.songs.map deleteInfo
          ++ q.songs.drop (min position.toNat q.songs.length) }

/-- Embedding of `Queue.pause` (lines 286-292). -/
def pause (q : Queue) : Except DTError Queue :=
  if q.paused then .error .AlreadyPaused
  else .ok { q with playing := false, paused := true }

/-- Embedding of `Queue.resume` (lines 297-303). -/
def resume (q : Queue) : Except DTError Queue :=
  if q.playing then .error .AlreadyPlaying
  else .ok { q with playing := true, paused := false }

/-- Embedding of `Queue.stop` (lines 307-315) restricted to the queue's own
state; connection teardown and manager removal are external effects. -/
def stop (q : Queue) : Queue :=
  { q with stopped := true }

/-- Embedding of `Queue.setVolume` (lines 321-326); the argument is typed,
so the non-number throw is unrepresentable. -/
def setVolume (percent : ℚ) (q : Queue) : Queue :=
  { q with volume := percent }

/-- Embedding of `Queue.skip` (lines 333-339): returns the song skipped to
(`songs[1]`, possibly `undefined`) and the updated queue. -/
def skip (q : Queue) : Except DTError (Option Song × Queue) :=
  if q.songs.length ≤ 1 ∧ ¬q.autoplay then .error .NoNextSong
  else .ok (q.songs[1]?, { q with next := true })

/-- Embedding of `Queue.previous` (lines 346-353): returns the target song
(possibly `undefined`) and the updated queue. -/
def previous (opts : Options) (q : Queue) : Except DTError (Option Song × Queue) :=
  if ¬opts.savePreviousSongs then .error .FeatureDisabled
  else if q.previousSongs.length = 0 ∧ q.repeatMode ≠ 2 then .error .NoPreviousSong
  else
    .ok ((if q.repeatMode = 2 then q.songs.getLast? else q.previousSongs.getLast?),
      { q with prev := true })

/-- One in-place swap `[l[i], l[j]] = [l[j], l[i]]`; out-of-range indices
leave the list unchanged (in the shuffle loop both are always in range). -/
def swapIdx (l : List Song) (i j : Nat) : List Song :=
  match l[i]?, l[j]? with
  | some a, some b => (l.set i b).set j a
  | _, _ => l

/-- The Fisher-Yates loop of `Queue.shuffle`: steps `i, i-1, ..., 1`, where
at step `k` the element at `k` is swapped with the one at `r k` (the random
draw `Math.floor(Math.random() * (k + 1))` of that iteration). -/
def fyLoop (r : Nat → Nat) (l : List Song) : Nat → List Song
  | 0 => l
  | i + 1 => fyLoop r (swapIdx l (i + 1) (r (i + 1))) i

/-- Embedding of `Queue.shuffle` (lines 358-367), parameterized by the
sequence of random draws `r` (`r k` is the draw of iteration `k`). -/
def shuffle (r : Nat → Nat) (q : Queue) : Queue :=
  match q.songs with
  | [] => q
  | playingSong :: rest => { q with songs := playingSong :: fyLoop r rest (rest.length - 1) }

/-- Embedding of `Queue.jump(num)` (lines 376-389). A negative `num ≠ -1`
runs `songs.unshift(...previousSongs.splice(num + 1))`: `splice` with the
negative start `num + 1` removes (and returns) the last `-num - 1` elements
of `previousSongs`. -/
def jump (opts : Options) (num : Int) (q : Queue) : Except DTError Queue :=
  if num > (q.songs.length : Int) ∨ -num > (q.previousSongs.length : Int) ∨ num = 0 then
    .error .InvalidSong
  else if 0 < num then
    .ok { q with songs := q.songs.drop (num.toNat - 1), next := true }
  else if ¬opts.savePreviousSongs then .error .InvalidSong
  else if num ≠ -1 then
    .ok { q with
          prev := true
          songs := q.previousSongs.drop (q.previousSongs.length - (-num - 1).toNat) ++ q.songs
          previousSongs := q.previousSongs.take (q.previousSongs.length - (-num - 1).toNat) }
  else .ok { q with prev := true }

/-- Embedding of `Queue.setRepeatMode(mode = null)` (lines 397-403):
`mode = null` cycles `(repeatMode + 1) % 3` (JavaScript `%` truncates toward
zero, i.e. `Int.tmod`); `mode` equal to the current mode resets to 0;
otherwise `mode` is stored as given. Returns the new repeat mode. -/
def setRepeatMode (mode : Option Int) (q : Queue) : Int × Queue :=
  match mode with
  | none =>
    let m := Int.tmod (q.repeatMode + 1) 3
    (m, { q with repeatMode := m })
  | some m =>
    if q.repeatMode = m then (0, { q with repeatMode := 0 })
    else (m, { q with repeatMode := m })

/-- Embedding of `Queue.setFilter(filter)` (lines 411-419): `none` models the
`false` argument (clear all); a name not in `distube.filters` is rejected; a
currently enabled name is removed (`splice(indexOf)`, i.e. first
occurrence); otherwise it is pushed. Afterwards `beginTime` is set to the
current playback time. Returns the enabled filters. -/
def setFilter (opts : Options) (filter : Option String) (q : Queue) : Except DTError (List String × Queue) :=
  match filter with
  | none =>
    .ok ([], { q with filters := [], beginTime := currentTime q })
  | some name =>
    if ¬opts.filters.contains name then .error .InvalidInput
    else if q.filters.contains name then
      .ok (q.filters.erase name, { q with filters := q.filters.erase name, beginTime := currentTime q })
    else
      .ok (q.filters ++ [name], { q with filters := q.filters ++ [name], beginTime := currentTime q })

/-- Embedding of `Queue.seek(time)` (lines 425-429). -/
def seek (time : ℚ) (q : Queue) : Queue :=
  { q with beginTime := time }

/-- Embedding of `Queue.addRelatedSong` (lines 435-441), with the resolver
call `handler.resolveSong(member, related.url)` supplied externally as
`resolved`. -/
def addRelatedSong (resolved : Song) (q : Queue) : Except DTError Queue :=
  match q.songs[0]? with
  | none => .error .NoPlayingSong
  | some head =>
    match head.related.find? (fun v => ¬(q.previousSongs.map (fun s => s.id)).contains v.id) with
    | none => .error .NoRelatedSong
    | some _ => addToQueue (some (.one resolved)) (-1) q

/-- Embedding of `Queue.toggleAutoplay` (lines 446-449). -/
def toggleAutoplay (q : Queue) : Bool × Queue :=
  (!q.autoplay, { q with autoplay := !q.autoplay })

/-- The mutating queue operations, as a single syntactic type (used to state
state invariants preserved by every operation). -/
inductive QueueOp where
  | addToQueueOp (input : Option SongInput) (position : Int)
  | pauseOp
  | resumeOp
  | stopOp
  | setVolumeOp (percent : ℚ)
  | skipOp
  | previousOp
  | shuffleOp (r : Nat → Nat)
  | jumpOp (num : Int)
  | setRepeatModeOp (mode : Option Int)
  | setFilterOp (filter : Option String)
  | seekOp (time : ℚ)
  | addRelatedSongOp (resolved : Song)
  | toggleAutoplayOp

/-- Run one queue operation, keeping only the resulting queue state (an
error leaves the state unchanged: in the source every throw of these
methods happens before the first field mutation). -/
def applyOp (opts : Options) : QueueOp → Queue → Except DTError Queue
  | .addToQueueOp input position, q => addToQueue input position q
  | .pauseOp, q => pause q
  | .resumeOp, q => resume q
  | .stopOp, q => .ok (stop q)
  | .setVolumeOp p, q => .ok (setVolume p q)
  | .skipOp, q => (skip q).map Prod.snd
  | .previousOp, q => (previous opts q).map Prod.snd
  | .shuffleOp r, q => .ok (shuffle r q)
  | .jumpOp n, q => jump opts n q
  | .setRepeatModeOp m, q => .ok (setRepeatMode m q).2
  | .setFilterOp f, q => (setFilter opts f q).map Prod.snd
  | .seekOp t, q => .ok (seek t q)
  | .addRelatedSongOp s, q => addRelatedSong s q
  | .toggleAutoplayOp, q => .ok (toggleAutoplay q).2

/-- Sample song with no raw info attached. -/
def songA : Song :=
  { id := "a", name := "Song A", isLive := false, duration := 100, url := "urlA", info := none, related := [] }

/-- Sample song carrying a raw-info handle. -/
def songB : Song :=
  { id := "b", name := "Song B", isLive := false, duration := 200, url := "urlB", info := some 7, related := [] }

/-- Options with history retention enabled. -/
def optsHistory : Options :=
  { savePreviousSongs := true, leaveOnStop := false, filters := [] }

namespace TaskSerializer

/-- Modelled from the spec: the per-session Task Serializer (§4.1) is not
under src/ (only `queue.taskQueue` appears, in QueueManager.test.ts), so it
is modelled as a scheduler state: `pending` holds the queued units in
submission order (identified by submission index), `running` the at most one
in-flight unit, and `completed` the finished units in completion order,
each with its success flag. -/
structure SerState where
  pending : List Nat
  running : Option Nat
  completed : List (Nat × Bool)
deriving DecidableEq

/-- Initial serializer state: units `0, ..., n-1` submitted in that order,
nothing running or completed. -/
def init (n : Nat) : SerState :=
  { pending := List.range n, running := none, completed := [] }

/-- Modelled from the spec: one cooperative scheduling step. A unit starts
only when nothing is in flight and it is the head of the FIFO queue; a
running unit eventually finishes with outcome `outcome i` (success or
failure), and either way is recorded as completed while the queue
proceeds. -/
inductive SerStep (outcome : Nat → Bool) : SerState → SerState → Prop
  | start (i : Nat) (rest : List Nat) (log : List (Nat × Bool)) :
      SerStep outcome ⟨i :: rest, none, log⟩ ⟨rest, some i, log⟩
  | finish (p : List Nat) (i : Nat) (log : List (Nat × Bool)) :
      SerStep outcome ⟨p, some i, log⟩ ⟨p, none, log ++ [(i, outcome i)]⟩

/-- Reachability of a serializer state by scheduling steps. -/
def Reaches (outcome : Nat → Bool) : SerState → SerState → Prop :=
  Relation.ReflTransGen (SerStep outcome)

/-- Number of in-flight units. -/
def inFlight (s : SerState) : Nat :=
  s.running.elim 0 fun _ => 1

/-- The units of a state in scheduling order: completed, then running, then
pending. -/
def runSeq (s : SerState) : List Nat :=
  s.completed.map Prod.fst ++ s.running.toList ++ s.pending

end TaskSerializer

namespace TaskSerializer

theorem runSeq_of_reaches {outcome : Nat → Bool} {n : Nat} {s : SerState}
    (h : Reaches outcome (init n) s) : runSeq s = List.range n := by
  induction h with
  | refl => simp [runSeq, init]
  | tail h1 step ih =>
    cases step with
    | start i rest log =>
      simp only [runSeq, Option.toList] at ih ⊢
      simpa using ih
    | finish p i log =>
      simp only [runSeq, Option.toList, List.map_append] at ih ⊢
      simpa using ih

theorem fifo_of_reaches {outcome : Nat → Bool} {n : Nat} {s : SerState}
    (h : Reaches outcome (init n) s) :
    s.completed.map Prod.fst = List.range s.completed.length := by
  have hr := runSeq_of_reaches h
  unfold runSeq at hr
  rw [List.append_assoc] at hr
  have hlen : s.completed.length ≤ n := by
    have hl := congrArg List.length hr
    simp at hl
    omega
  have ht := congrArg (List.take (s.completed.map Prod.fst).length) hr
  rw [List.take_left] at ht
  rw [ht, List.length_map, List.take_range]
  congr 1
  omega

theorem reaches_all (outcome : Nat → Bool) :
    ∀ (p : List Nat) (log : List (Nat × Bool)),
      Reaches outcome ⟨p, none, log⟩ ⟨[], none, log ++ p.map fun i => (i, outcome i)⟩
  | [], log => by simpa using Relation.ReflTransGen.refl
  | i :: rest, log => by
    have s1 : SerStep outcome ⟨i :: rest, none, log⟩ ⟨rest, some i, log⟩ :=
      SerStep.start i rest log
    have s2 : SerStep outcome ⟨rest, some i, log⟩ ⟨rest, none, log ++ [(i, outcome i)]⟩ :=
      SerStep.finish rest i log
    have ih := reaches_all outcome rest (log ++ [(i, outcome i)])
    refine Relation.ReflTransGen.trans ?_ (by simpa using ih)
    exact Relation.ReflTransGen.head s1 (Relation.ReflTransGen.single s2)

end TaskSerializer

theorem count_swapIdx (l : List Song) (i j : Nat) (x : Song) :
    (swapIdx l i j).count x = l.count x := by
  unfold swapIdx
  cases hi : l[i]? with
  | none => rfl
  | some a =>
    cases hj : l[j]? with
    | none => rfl
    | some b =>
      obtain ⟨hib, hia⟩ := List.getElem?_eq_some_iff.mp hi
      obtain ⟨hjb, hja⟩ := List.getElem?_eq_some_iff.mp hj
      subst hia
      subst hja
      have h1 := List.count_set l[j] x l i hib
      have hjb2 : j < (l.set i l[j]).length := by simpa using hjb
      have h2 := List.count_set l[i] x (l.set i l[j]) j hjb2
      have hgs : (l.set i l[j])[j] = l[j] := by
        rw [List.getElem_set]
        split <;> rfl
      rw [hgs] at h2
      rw [h1] at h2
      have he : (if (l[i] == x) = true then 1 else 0) ≤ l.count x := by
        split
        · rename_i hbeq
          have hix : l[i] = x := by simpa using hbeq
          have hm : x ∈ l := by
            rw [← hix]
            exact List.getElem_mem hib
          exact List.count_pos_iff.mpr hm
        · exact Nat.zero_le _
      rw [h2]
      omega

theorem swapIdx_perm (l : List Song) (i j : Nat) : (swapIdx l i j).Perm l :=
  List.perm_iff_count.mpr fun x => count_swapIdx l i j x

theorem fyLoop_perm (r : Nat → Nat) : ∀ (i : Nat) (l : List Song), (fyLoop r l i).Perm l
  | 0, l => List.Perm.refl l
  | i + 1, l =>
    List.Perm.trans (fyLoop_perm r i (swapIdx l (i + 1) (r (i + 1)))) (swapIdx_perm l (i + 1) (r (i + 1)))

/-- The data-model invariant of C2: `repeatMode ∈ {0,1,2}` and
`beginTime ≥ 0`. -/
def QueueInv (q : Queue) : Prop :=
  (q.repeatMode = 0 ∨ q.repeatMode = 1 ∨ q.repeatMode = 2) ∧ 0 ≤ q.beginTime

/-- Arguments under which an operation keeps `QueueInv`: `setRepeatMode`
with a null or in-range mode, `seek` with a nonnegative time (the code
accepts out-of-range modes and negative times, which break the
invariant). -/
def argWithinRange : QueueOp → Prop
  | .setRepeatModeOp (some m) => m = 0 ∨ m = 1 ∨ m = 2
  | .seekOp t => 0 ≤ t
  | _ => True

/-- Sample YouTube input describing an active live stream. -/
def ytLive : YTInput :=
  { full := false, videoId := "live1", title := "Live stream", isLive := true,
    lengthSeconds := some 10, length_seconds := none, duration := none, related := [] }

/-- Sample other-source input describing an active live stream. -/
def otherLive : OtherInput :=
  { id := some "o1", title := some "Other live", name := none, is_live := true, isLive := false,
    _duration_raw := some 33, duration := none, webpage_url := none, url := "u", related := [] }

/-- Queue state with non-empty history and repeat-all enabled (counterexample
input for C1). -/
def qPrevCE : Queue :=
  { initialQueue [songB] with previousSongs := [songA], repeatMode := 2 }

/-- Queue state with non-empty history and repeat mode off (witness input for
C1). -/
def qPrevW : Queue :=
  { initialQueue [songB] with previousSongs := [songA] }

/-- Queue state with two history entries (witness input for C4). -/
def qBack : Queue :=
  { initialQueue [songB] with previousSongs := [songA, songB] }

/-- C3: for a single session, the Task Serializer keeps at most one unit in
flight in every reachable state, completed units are exactly the first
submitted units in FIFO submission order, and — whatever the success/failure
outcome of each unit — every submitted unit eventually completes (a failure
does not prevent queued successors from running). -/
theorem serializer_fifo_spec (n : Nat) (outcome : Nat → Bool) :
    (∀ s : TaskSerializer.SerState,
        TaskSerializer.Reaches outcome (TaskSerializer.init n) s →
          TaskSerializer.inFlight s ≤ 1 ∧
          s.completed.map Prod.fst = List.range s.completed.length)
    ∧ TaskSerializer.Reaches outcome (TaskSerializer.init n)
        ⟨[], none, (List.range n).map fun i => (i, outcome i)⟩ := by
  constructor
  · intro s hs
    refine ⟨?_, TaskSerializer.fifo_of_reaches hs⟩
    cases h : s.running <;> simp [TaskSerializer.inFlight, h]
  · have h := TaskSerializer.reaches_all outcome (List.range n) []
    simpa [TaskSerializer.init] using h

/-- Witness for C3: a two-unit session in which unit 0 fails still completes
both units, in submission order, with at most one unit in flight. -/
theorem serializer_fifo_spec_witness :
    TaskSerializer.inFlight ⟨[], none, [(0, false), (1, true)]⟩ ≤ 1 ∧
    ([(0, false), (1, true)] : List (Nat × Bool)).map Prod.fst =
      List.range ([(0, false), (1, true)] : List (Nat × Bool)).length := by
  have h := serializer_fifo_spec 2 fun i => decide (0 < i)
  exact h.1 ⟨[], none, [(0, false), (1, true)]⟩ h.2

/-- C5: for every non-empty queue and every sequence of random draws,
`shuffle` keeps the head song at index 0 and permutes (multiset-equal) the
remaining songs. -/
theorem shuffle_spec (r : Nat → Nat) (q : Queue) (h : q.songs ≠ []) :
    (shuffle r q).songs.head? = q.songs.head? ∧
    ((shuffle r q).songs.tail).Perm q.songs.tail := by
  obtain ⟨vol, songs, prevs, st, nx, pv, pl, pa, rm, ap, fl, bt, ar⟩ := q
  cases songs with
  | nil => simp at h
  | cons a rest =>
    refine ⟨by simp [shuffle], ?_⟩
    simpa [shuffle] using fyLoop_perm r (rest.length - 1) rest

/-- Witness for C5: shuffling a concrete two-song queue with the all-zero
draw sequence keeps the head and permutes the tail. -/
theorem shuffle_spec_witness :
    (shuffle (fun _ => 0) (initialQueue [songA, songB])).songs.head? =
      (initialQueue [songA, songB]).songs.head? ∧
    ((shuffle (fun _ => 0) (initialQueue [songA, songB])).songs.tail).Perm
      (initialQueue [songA, songB]).songs.tail :=
  shuffle_spec (fun _ => 0) (initialQueue [songA, songB]) (by decide)

/-- C9: a song constructed through either patch path with its live flag set
has duration 0. -/
theorem song_isLive_duration_zero (y : YTInput) (o : OtherInput) :
    ((patchYouTube y).isLive = true → (patchYouTube y).duration = 0)
    ∧ ((patchOther o).isLive = true → (patchOther o).duration = 0) := by
  constructor
  · intro h
    simp only [patchYouTube] at h ⊢
    simp [h]
  · intro h
    simp only [patchOther] at h ⊢
    simp [h]

/-- Witness for C9: two concrete live inputs, one per patch path, both give
duration 0. -/
theorem song_isLive_duration_zero_witness :
    (patchYouTube ytLive).duration = 0 ∧ (patchOther otherLive).duration = 0 :=
  ⟨(song_isLive_duration_zero ytLive otherLive).1 (by decide),
   (song_isLive_duration_zero ytLive otherLive).2 (by decide)⟩

/-- C7: `pause` rejects exactly when already paused and otherwise sets
`playing := false, paused := true`; `resume` rejects exactly when already
playing and otherwise sets `playing := true, paused := false`; after a
successful `pause`, a second `pause` rejects and a subsequent `resume`
succeeds (a rejection happens before any mutation, leaving the flags
unchanged). -/
theorem pause_resume_spec (q : Queue) :
    (pause q = .error .AlreadyPaused ↔ q.paused = true)
    ∧ (q.paused = false → pause q = .ok { q with playing := false, paused := true })
    ∧ (resume q = .error .AlreadyPlaying ↔ q.playing = true)
    ∧ (q.playing = false → resume q = .ok { q with playing := true, paused := false })
    ∧ (q.paused = false →
        pause q = .ok { q with playing := false, paused := true }
        ∧ pause { q with playing := false, paused := true } = .error .AlreadyPaused
        ∧ resume { q with playing := false, paused := true } =
            .ok { q with playing := true, paused := false }) := by
  unfold pause resume
  cases hp : q.paused <;> cases hl : q.playing <;> simp_all

/-- Witness for C7: pausing a freshly constructed (unpaused) queue succeeds
and flips the flags. -/
theorem pause_resume_spec_witness :
    pause (initialQueue []) = .ok { initialQueue [] with playing := false, paused := true } :=
  (pause_resume_spec (initialQueue [])).2.1 rfl

/-- Counterexample to C6 as stated: on a queue whose `songs` list is empty
(constructible, the constructor accepts an empty song array) with autoplay
disabled, `skip` rejects even though the queue does not contain exactly one
item — the code tests `songs.length <= 1`, not `=== 1`. -/
theorem skip_empty_counterexample :
    skip (initialQueue []) = .error .NoNextSong
    ∧ (initialQueue []).songs.length ≠ 1
    ∧ (initialQueue []).autoplay = false := by decide

/-- C6 (amended): `skip` rejects with `NoNextSong` exactly when `songs`
contains at most one item and autoplay is disabled; otherwise it succeeds,
returns `songs[1]`, sets the `next` intent flag, and leaves `songs` and
`previousSongs` unchanged. -/
theorem skip_spec (q : Queue) :
    (skip q = .error .NoNextSong ↔ (q.songs.length ≤ 1 ∧ q.autoplay = false))
    ∧ (¬(q.songs.length ≤ 1 ∧ q.autoplay = false) →
        skip q = .ok (q.songs[1]?, { q with next := true })) := by
  unfold skip
  cases ha : q.autoplay <;> simp [ha]

/-- Witness for C6: skipping on a two-song queue succeeds, returning the
second song and setting only the `next` flag. -/
theorem skip_spec_witness :
    skip (initialQueue [songA, songB]) =
      .ok (some songB, { initialQueue [songA, songB] with next := true }) :=
  (skip_spec (initialQueue [songA, songB])).2 (by decide)

/-- Counterexample to C1 as stated: with history retention on, repeat-all
enabled and a NON-empty history, `previous` returns the last element of
`songs` (here `songB`), not the last element of `previousSongs` (`songA`) —
the code tests only `repeatMode === 2`, ignoring whether history is
empty. -/
theorem previous_repeatAll_counterexample :
    previous optsHistory qPrevCE = .ok (some songB, { qPrevCE with prev := true })
    ∧ qPrevCE.previousSongs ≠ []
    ∧ qPrevCE.previousSongs.getLast? = some songA
    ∧ songA ≠ songB := by decide

/-- C1 (amended): `previous` rejects with `FeatureDisabled` exactly when
history retention is off; otherwise it rejects with `NoPreviousSong` exactly
when history is empty and repeat mode is not repeat-all; otherwise it sets
the `prev` intent flag and returns the target item, which is the last
element of `songs` whenever repeat mode is repeat-all, and the last element
of `previousSongs` otherwise. -/
theorem previous_spec (opts : Options) (q : Queue) :
    (previous opts q = .error .FeatureDisabled ↔ opts.savePreviousSongs = false)
    ∧ (opts.savePreviousSongs = true →
        (previous opts q = .error .NoPreviousSong ↔
          (q.previousSongs = [] ∧ q.repeatMode ≠ 2)))
    ∧ (opts.savePreviousSongs = true → ¬(q.previousSongs = [] ∧ q.repeatMode ≠ 2) →
        previous opts q = .ok
          ((if q.repeatMode = 2 then q.songs.getLast? else q.previousSongs.getLast?),
            { q with prev := true })) := by
  unfold previous
  cases hs : opts.savePreviousSongs
  all_goals simp [hs, List.length_eq_zero]
  all_goals by_cases he : q.previousSongs = [] <;>
    by_cases hr : q.repeatMode = 2 <;>
    simp [he, hr]

/-- Witness for C1: with history `[songA]` and repeat mode off, `previous`
returns `songA` and sets the `prev` flag. -/
theorem previous_spec_witness :
    previous optsHistory qPrevW = .ok
      ((if qPrevW.repeatMode = 2 then qPrevW.songs.getLast? else qPrevW.previousSongs.getLast?),
        { qPrevW with prev := true }) :=
  (previous_spec optsHistory qPrevW).2.2 rfl (by decide)

/-- Counterexample to C8 as stated: inserting one song at position 5 into a
one-song queue succeeds, but the song lands at index 1, not at index 5 —
JavaScript `splice` clamps the start index to the array length. -/
theorem addToQueue_position_counterexample :
    addToQueue (some (.one songB)) 5 (initialQueue [songA]) =
      .ok { initialQueue [songA] with songs := [songA, deleteInfo songB] }
    ∧ [songA, deleteInfo songB][5]? = none
    ∧ [songA, deleteInfo songB][1]? = some (deleteInfo songB) := by decide

/-- C8 (amended): `addToQueue` rejects with `InvalidInput` exactly when the
argument is missing, an empty array, or the position is 0; on success a
negative position appends the items at the end of `songs`, and a positive
position inserts them starting at index `min position songs.length`; the
relative order of the existing items is preserved and every inserted item
has its transient `info` metadata cleared. -/
theorem addToQueue_spec (input : Option SongInput) (pos : Int) (q : Queue) :
    (addToQueue input pos q = .error .InvalidInput ↔
      (input = none ∨ input = some (.many []) ∨ pos = 0))
    ∧ (∀ si, input = some si → si.songs ≠ [] → pos < 0 →
        addToQueue input pos q = .ok { q with songs := q.songs ++ si.songs.map deleteInfo })
    ∧ (∀ si, input = some si → si.songs ≠ [] → 0 < pos →
        addToQueue input pos q = .ok { q with songs :=
          (q.songs.take (min pos.toNat q.songs.length) ++ si.songs.map deleteInfo
            ++ q.songs.drop (min pos.toNat q.songs.length)) }) := by
  refine ⟨?_, ?_, ?_⟩
  · cases input with
    | none => simp [addToQueue]
    | some si =>
      cases si with
      | one s =>
        unfold addToQueue
        simp only [SongInput.songs, List.isEmpty_cons, if_false, Bool.false_eq_true]
        by_cases h0 : pos = 0
        · simp [h0]
        · rw [if_neg h0]
          split <;> simp [h0]
      | many l =>
        unfold addToQueue
        simp only [SongInput.songs]
        cases l with
        | nil => simp
        | cons x xs =>
          simp only [List.isEmpty_cons, if_false, Bool.false_eq_true]
          by_cases h0 : pos = 0
          · simp [h0]
          · rw [if_neg h0]
            split <;> simp [h0]
  · intro si hsi hne hneg
    subst hsi
    have he : addToQueue (some si) pos q =
        (if si.songs.isEmpty then .error .InvalidInput
        else if pos = 0 then .error .InvalidInput
        else if pos < 0 then .ok { q with songs := q.songs ++ si.songs.map deleteInfo }
        else .ok { q with songs :=
          (q.songs.take (min pos.toNat q.songs.length) ++ si.songs.map deleteInfo
            ++ q.songs.drop (min pos.toNat q.songs.length)) }) := rfl
    rw [he, if_neg (by simpa [List.isEmpty_iff] using hne), if_neg (by omega : ¬pos = 0),
      if_pos hneg]
  · intro si hsi hne hpos
    subst hsi
    have he : addToQueue (some si) pos q =
        (if si.songs.isEmpty then .error .InvalidInput
        else if pos = 0 then .error .InvalidInput
        else if pos < 0 then .ok { q with songs := q.songs ++ si.songs.map deleteInfo }
        else .ok { q with songs :=
          (q.songs.take (min pos.toNat q.songs.length) ++ si.songs.map deleteInfo
            ++ q.songs.drop (min pos.toNat q.songs.length)) }) := rfl
    rw [he, if_neg (by simpa [List.isEmpty_iff] using hne), if_neg (by omega : ¬pos = 0),
      if_neg (by omega : ¬pos < 0)]

/-- Witness for C8: inserting one song at position 1 of a one-song queue
places it (with `info` cleared) right after the head. -/
theorem addToQueue_spec_witness :
    addToQueue (some (.one songB)) 1 (initialQueue [songA]) =
      .ok { initialQueue [songA] with songs := [songA, deleteInfo songB] } :=
  (addToQueue_spec (some (.one songB)) 1 (initialQueue [songA])).2.2
    (.one songB) rfl (by decide) (by decide)

/-- C4: `jump(n)` rejects with `InvalidSong` exactly when `n = 0`, `n`
exceeds `songs.length`, `-n` exceeds `previousSongs.length`, or `n` is
negative while history retention is disabled; a successful forward jump
replaces `songs` by its suffix starting at index `n - 1` and sets `next`
(so `jump 1` leaves `songs` unchanged); a successful backward jump moves the
last `-n - 1` elements of `previousSongs` to the front of `songs` and sets
`prev`. -/
theorem jump_spec (opts : Options) (n : Int) (q : Queue) :
    (jump opts n q = .error .InvalidSong ↔
      (n = 0 ∨ (q.songs.length : Int) < n ∨ (q.previousSongs.length : Int) < -n ∨
        (n < 0 ∧ opts.savePreviousSongs = false)))
    ∧ (0 < n → n ≤ (q.songs.length : Int) →
        jump opts n q = .ok { q with songs := q.songs.drop (n.toNat - 1), next := true })
    ∧ (n < 0 → -n ≤ (q.previousSongs.length : Int) → opts.savePreviousSongs = true →
        jump opts n q = .ok { q with
          prev := true
          songs := q.previousSongs.drop (q.previousSongs.length - (-n - 1).toNat) ++ q.songs
          previousSongs := q.previousSongs.take (q.previousSongs.length - (-n - 1).toNat) }) := by
  unfold jump
  by_cases h1 : n > (q.songs.length : Int) ∨ -n > (q.previousSongs.length : Int) ∨ n = 0
  · rw [if_pos h1]
    refine ⟨⟨fun _ => ?_, fun _ => rfl⟩, fun hp hle => absurd h1 (by omega), fun hn hle hs => absurd h1 (by omega)⟩
    rcases h1 with h | h | h
    · exact Or.inr (Or.inl (by omega))
    · exact Or.inr (Or.inr (Or.inl (by omega)))
    · exact Or.inl h
  · rw [if_neg h1]
    push_neg at h1
    obtain ⟨hl1, hl2, hl3⟩ := h1
    by_cases h2 : 0 < n
    · rw [if_pos h2]
      refine ⟨⟨fun hcon => absurd hcon (by simp), fun hr => ?_⟩, fun _ _ => rfl,
        fun hn _ _ => absurd hn (by omega)⟩
      rcases hr with h | h | h | ⟨h, _⟩ <;> omega
    · rw [if_neg h2]
      cases hsv : opts.savePreviousSongs with
      | false =>
        rw [if_pos (by simp [hsv])]
        refine ⟨⟨fun _ => Or.inr (Or.inr (Or.inr ⟨by omega, rfl⟩)), fun _ => rfl⟩,
          fun hp _ => absurd hp h2, fun _ _ hst => ?_⟩
        simp at hst
      | true =>
        rw [if_neg (by simp [hsv])]
        by_cases h4 : n ≠ -1
        · rw [if_pos h4]
          refine ⟨⟨fun hcon => absurd hcon (by simp), fun hr => ?_⟩,
            fun hp _ => absurd hp h2, fun _ _ _ => rfl⟩
          rcases hr with h | h | h | ⟨_, hf⟩
          · omega
          · omega
          · omega
          · simp at hf
        · rw [if_neg h4]
          have hn1 : n = -1 := by omega
          subst hn1
          refine ⟨⟨fun hcon => absurd hcon (by simp), fun hr => ?_⟩,
            fun hp _ => absurd hp h2, fun _ _ _ => ?_⟩
          · rcases hr with h | h | h | ⟨_, hf⟩
            · omega
            · omega
            · omega
            · simp at hf
          · have hz : ((-(-1 : Int)) - 1).toNat = 0 := rfl
            rw [hz, Nat.sub_zero, List.drop_length, List.take_length, List.nil_append]

/-- Witness for C4: on a queue with history `[songA, songB]`, `jump (-2)`
moves the last element of the history to the front of `songs` and sets
`prev`. -/
theorem jump_spec_witness :
    jump optsHistory (-2) qBack = .ok { qBack with
      prev := true
      songs := qBack.previousSongs.drop (qBack.previousSongs.length - ((2 : Int) - 1).toNat) ++ qBack.songs
      previousSongs := qBack.previousSongs.take (qBack.previousSongs.length - ((2 : Int) - 1).toNat) } :=
  (jump_spec optsHistory (-2) qBack).2.2 (by decide) (by decide) rfl

/-- C10: `playing` is always the negation of `paused`: it holds after
construction and is preserved by every queue operation (on success; a
rejection leaves the state unchanged since every throw happens before the
first field mutation). -/
theorem playing_eq_not_paused :
    (∀ songs : List Song, (initialQueue songs).playing = !(initialQueue songs).paused)
    ∧ ∀ (opts : Options) (op : QueueOp) (q w : Queue),
        q.playing = !q.paused → applyOp opts op q = .ok w → w.playing = !w.paused := by
  refine ⟨fun songs => rfl, ?_⟩
  intro opts op q w hq h
  cases op with
  | addToQueueOp input pos =>
    simp only [applyOp, addToQueue] at h
    repeat' split at h
    all_goals first
      | exact Except.noConfusion h
      | (injection h with h2; subst h2; exact hq)
  | pauseOp =>
    simp only [applyOp, pause] at h
    split at h
    · exact Except.noConfusion h
    · injection h with h2
      subst h2
      rfl
  | resumeOp =>
    simp only [applyOp, resume] at h
    split at h
    · exact Except.noConfusion h
    · injection h with h2
      subst h2
      rfl
  | stopOp =>
    injection h with h2
    subst h2
    exact hq
  | setVolumeOp percent =>
    injection h with h2
    subst h2
    exact hq
  | skipOp =>
    simp only [applyOp] at h
    cases hsq : skip q with
    | error e =>
      rw [hsq] at h
      exact Except.noConfusion h
    | ok p =>
      rw [hsq] at h
      injection h with h2
      subst h2
      unfold skip at hsq
      repeat' split at hsq
      all_goals first
        | exact Except.noConfusion hsq
        | (injection hsq with h3; subst h3; exact hq)
  | previousOp =>
    simp only [applyOp] at h
    cases hsq : previous opts q with
    | error e =>
      rw [hsq] at h
      exact Except.noConfusion h
    | ok p =>
      rw [hsq] at h
      injection h with h2
      subst h2
      unfold previous at hsq
      repeat' split at hsq
      all_goals first
        | exact Except.noConfusion hsq
        | (injection hsq with h3; subst h3; exact hq)
  | shuffleOp r =>
    simp only [applyOp, shuffle] at h
    repeat' split at h
    all_goals
      injection h with h2
      subst h2
      exact hq
  | jumpOp num =>
    simp only [applyOp, jump] at h
    repeat' split at h
    all_goals first
      | exact Except.noConfusion h
      | (injection h with h2; subst h2; exact hq)
  | setRepeatModeOp m =>
    injection h with h2
    subst h2
    cases m with
    | none => exact hq
    | some m =>
      simp only [setRepeatMode]
      split <;> exact hq
  | setFilterOp f =>
    simp only [applyOp] at h
    cases hsq : setFilter opts f q with
    | error e =>
      rw [hsq] at h
      exact Except.noConfusion h
    | ok p =>
      rw [hsq] at h
      injection h with h2
      subst h2
      unfold setFilter at hsq
      repeat' split at hsq
      all_goals first
        | exact Except.noConfusion hsq
        | (injection hsq with h3; subst h3; exact hq)
  | seekOp t =>
    injection h with h2
    subst h2
    exact hq
  | addRelatedSongOp s =>
    simp only [applyOp, addRelatedSong, addToQueue] at h
    repeat' split at h
    all_goals first
      | exact Except.noConfusion h
      | (injection h with h2; subst h2; exact hq)
  | toggleAutoplayOp =>
    injection h with h2
    subst h2
    exact hq

/-- Witness for C10: after pausing a fresh queue, the flags are still
opposite. -/
theorem playing_eq_not_paused_witness :
    ({ initialQueue [] with playing := false, paused := true } : Queue).playing =
      !({ initialQueue [] with playing := false, paused := true } : Queue).paused :=
  playing_eq_not_paused.2 optsHistory .pauseOp (initialQueue []) _ rfl rfl

/-- Counterexample to C2 as stated: `setRepeatMode(5)` is accepted by the
code (the only rejected arguments are non-numbers) and sets
`repeatMode = 5`, breaking the enum invariant; likewise `seek(-1)` is
accepted and sets `beginTime = -1 < 0`. -/
theorem invariant_violation_counterexample :
    (setRepeatMode (some 5) (initialQueue [])).2.repeatMode = 5
    ∧ ¬QueueInv (setRepeatMode (some 5) (initialQueue [])).2
    ∧ (seek (-1) (initialQueue [])).beginTime = -1
    ∧ ¬QueueInv (seek (-1) (initialQueue [])) := by
  refine ⟨rfl, ?_, rfl, ?_⟩
  · intro hc
    rcases hc.1 with h | h | h <;> cases h
  · intro hc
    have := hc.2
    norm_num [seek, initialQueue] at this

/-- C2 (amended): `repeatMode ∈ {0,1,2}` and `beginTime ≥ 0` hold for a
freshly constructed queue and are preserved by every queue operation whose
argument is within the documented range (`setRepeatMode` with a null or
in-range mode, `seek` with a nonnegative time); `setRepeatMode` accepts any
number and `seek` any time, and out-of-range values break the invariant. -/
theorem invariants_preserved :
    (∀ songs : List Song, QueueInv (initialQueue songs))
    ∧ ∀ (opts : Options) (op : QueueOp) (q w : Queue),
        argWithinRange op → QueueInv q → applyOp opts op q = .ok w → QueueInv w := by
  refine ⟨fun songs => ⟨Or.inl rfl, le_refl 0⟩, ?_⟩
  intro opts op q w harg hq h
  obtain ⟨hrm, hbt⟩ := hq
  have hct : 0 ≤ currentTime q := by
    unfold currentTime
    cases har : q.audioResource with
    | none => exact le_refl 0
    | some ms =>
      have hms : (0 : ℚ) ≤ (ms : ℚ) / 1000 := by positivity
      linarith
  cases op with
  | addToQueueOp input pos =>
    simp only [applyOp, addToQueue] at h
    repeat' split at h
    all_goals first
      | exact Except.noConfusion h
      | (injection h with h2; subst h2; exact ⟨hrm, hbt⟩)
  | pauseOp =>
    simp only [applyOp, pause] at h
    split at h
    · exact Except.noConfusion h
    · injection h with h2
      subst h2
      exact ⟨hrm, hbt⟩
  | resumeOp =>
    simp only [applyOp, resume] at h
    split at h
    · exact Except.noConfusion h
    · injection h with h2
      subst h2
      exact ⟨hrm, hbt⟩
  | stopOp =>
    injection h with h2
    subst h2
    exact ⟨hrm, hbt⟩
  | setVolumeOp percent =>
    injection h with h2
    subst h2
    exact ⟨hrm, hbt⟩
  | skipOp =>
    simp only [applyOp] at h
    cases hsq : skip q with
    | error e =>
      rw [hsq] at h
      exact Except.noConfusion h
    | ok p =>
      rw [hsq] at h
      injection h with h2
      subst h2
      unfold skip at hsq
      repeat' split at hsq
      all_goals first
        | exact Except.noConfusion hsq
        | (injection hsq with h3; subst h3; exact ⟨hrm, hbt⟩)
  | previousOp =>
    simp only [applyOp] at h
    cases hsq : previous opts q with
    | error e =>
      rw [hsq] at h
      exact Except.noConfusion h
    | ok p =>
      rw [hsq] at h
      injection h with h2
      subst h2
      unfold previous at hsq
      repeat' split at hsq
      all_goals first
        | exact Except.noConfusion hsq
        | (injection hsq with h3; subst h3; exact ⟨hrm, hbt⟩)
  | shuffleOp r =>
    simp only [applyOp, shuffle] at h
    repeat' split at h
    all_goals
      injection h with h2
      subst h2
      exact ⟨hrm, hbt⟩
  | jumpOp num =>
    simp only [applyOp, jump] at h
    repeat' split at h
    all_goals first
      | exact Except.noConfusion h
      | (injection h with h2; subst h2; exact ⟨hrm, hbt⟩)
  | setRepeatModeOp m =>
    injection h with h2
    subst h2
    cases m with
    | none =>
      refine ⟨?_, hbt⟩
      rcases hrm with hr | hr | hr <;> simp only [setRepeatMode, hr] <;> decide
    | some m =>
      simp only [setRepeatMode]
      split
      · exact ⟨Or.inl rfl, hbt⟩
      · exact ⟨harg, hbt⟩
  | setFilterOp f =>
    simp only [applyOp] at h
    cases hsq : setFilter opts f q with
    | error e =>
      rw [hsq] at h
      exact Except.noConfusion h
    | ok p =>
      rw [hsq] at h
      injection h with h2
      subst h2
      unfold setFilter at hsq
      repeat' split at hsq
      all_goals first
        | exact Except.noConfusion hsq
        | (injection hsq with h3; subst h3; exact ⟨hrm, hct⟩)
  | seekOp t =>
    injection h with h2
    subst h2
    exact ⟨hrm, harg⟩
  | addRelatedSongOp s =>
    simp only [applyOp, addRelatedSong, addToQueue] at h
    repeat' split at h
    all_goals first
      | exact Except.noConfusion h
      | (injection h with h2; subst h2; exact ⟨hrm, hbt⟩)
  | toggleAutoplayOp =>
    injection h with h2
    subst h2
    exact ⟨hrm, hbt⟩

/-- Witness for C2: `setRepeatMode(2)` on a fresh queue keeps the
invariant. -/
theorem invariants_preserved_witness :
    QueueInv ((setRepeatMode (some 2) (initialQueue [])).2) :=
  invariants_preserved.2 optsHistory (.setRepeatModeOp (some 2)) (initialQueue []) _
    (Or.inr (Or.inr rfl)) ⟨Or.inl rfl, le_refl 0⟩ rfl

end DisTubeModel
